import Mathlib

/-!
# Verification of ANHALYZE `anhalyze_utils.py`

Shallow embedding of the data-transformation pipeline of
`src/anhalyze/anhalyze_utils.py` (path resolution, file catalog,
spatial subsetting, statistics aggregation, time-series building and
marine-heatwave threshold arithmetic), together with theorems settling
the specification claims.

Conventions:
* Python strings are Lean `String`; Python `pat in s` is `strContains s pat`;
  Python string comparison (code-point lexicographic) is `strLe`.
* Float values are `ℚ`; a possibly-missing (`NaN`) cell is `Option ℚ`
  with `none` for `NaN`.
* Python exceptions are `Except` errors; functions that perform external
  I/O in the source (directory listing, NetCDF reads, environment
  variables, hostname) receive that data as an explicit argument.
-/

set_option autoImplicit false

set_option allowUnsafeReducibility true

attribute [semireducible] Rat.add Rat.mul Rat.sub Rat.div Rat.inv Rat.neg

deriving instance DecidableEq for Except

/-! ## String primitives

The built-in `String` operations (`splitOn`, `toUpper`, `toNat?`, `≤`)
are implemented on byte positions and do not reduce inside the kernel,
so the embedding re-implements them structurally on `List Char`.  For
the ASCII data handled by the source these agree with Python semantics.
-/

/-- Is `ps` a leading segment of `cs`?  Helper for the embedding of the
Python substring operator `in`. -/
def startsWithL : List Char → List Char → Bool
  | [], _ => true
  | _ :: _, [] => false
  | p :: ps, c :: cs => p == c && startsWithL ps cs

/-- Does `pat` occur as a contiguous segment of the character list?
Helper for the embedding of the Python substring operator `in`. -/
def hasSubstrL (pat : List Char) : List Char → Bool
  | [] => pat.isEmpty
  | c :: cs => startsWithL pat (c :: cs) || hasSubstrL pat cs

/-- Embedding of the Python expression `pat in s` on strings. -/
def strContains (s pat : String) : Bool :=
  hasSubstrL pat.data s.data

/-- Split a character list at every occurrence of the separator
character; embeds Python `str.split(sep)` for a one-character `sep`. -/
def splitOnL (sep : Char) : List Char → List (List Char)
  | [] => [[]]
  | c :: cs =>
      let r := splitOnL sep cs
      if c == sep then [] :: r
      else
        match r with
        | [] => [[c]]
        | h :: t => (c :: h) :: t

/-- Embedding of Python `str.upper()` (character-wise upper-casing). -/
def strUpper (s : String) : String :=
  ⟨s.data.map Char.toUpper⟩

/-- Value of an ASCII digit character, `none` otherwise. -/
def charDigit (c : Char) : Option Nat :=
  if 48 ≤ c.toNat && c.toNat ≤ 57 then some (c.toNat - 48) else none

/-- Embedding of Python `int(s)` on a character list restricted to plain
digit sequences: `none` (a `ValueError`) on the empty list or on any
non-digit character. -/
def strToNatL (cs : List Char) : Option Nat :=
  if cs.isEmpty then none
  else cs.foldl (fun acc c => acc.bind fun n => (charDigit c).map fun d => n * 10 + d) (some 0)

/-- Decimal digits of a natural number, fuel-based so that it is
structural; helper for `natToStr`. -/
def natToStrAux : Nat → Nat → List Char
  | 0, _ => []
  | fuel + 1, n =>
      if n < 10 then [Char.ofNat (48 + n)]
      else natToStrAux fuel (n / 10) ++ [Char.ofNat (48 + n % 10)]

/-- Embedding of Python `str(n)` for a non-negative integer. -/
def natToStr (n : Nat) : String :=
  ⟨natToStrAux (n + 1) n⟩

/-- Strict lexicographic comparison of character lists by code point;
embeds Python string `<`. -/
def strLtL : List Char → List Char → Bool
  | _, [] => false
  | [], _ :: _ => true
  | a :: as, b :: bs => a.toNat < b.toNat || (a.toNat == b.toNat && strLtL as bs)

/-- Embedding of Python string `<=` (code-point lexicographic order). -/
def strLe (a b : String) : Bool :=
  strLtL a.data b.data || a.data == b.data

/-- The sort used by the catalog: embedding of Python `sorted()` on
strings (a stable sort by `strLe`). -/
def sortStrings (l : List String) : List String :=
  List.insertionSort (fun a b => strLe a b = true) l

/-! ## Path Resolver: `get_paths` (source lines 22-77) -/

/-- Failure modes of `get_paths`.  In the legacy code `configError` is a
printed remediation message followed by an unbound-local fault at the
final `return`, `assertFail` is a failed `assert` on the run-name
format, and `invalidRun` is the `ValueError('Incorrect run_name.')`. -/
inductive PathError where
  | configError
  | assertFail
  | invalidRun
deriving DecidableEq, Repr

/-- Embedding of `run_name.split('-')[0]` in `get_paths`. -/
def model_path (run_name : String) : String :=
  ⟨(splitOnL '-' run_name.data).getD 0 []⟩

/-- Embedding of `run_name.split('-')[1][1:3].upper()` in `get_paths`. -/
def userInitials (run_name : String) : String :=
  strUpper ⟨((splitOnL '-' run_name.data).getD 1 []).drop 1 |>.take 2⟩

/-- Embedding of the user lookup in `get_paths` (source lines 65-72):
the `"JM"`/`"PM"` substring test and the `"MC"`/`"EE"` equality tests;
`none` is the `ValueError` branch. -/
def userPathOf (initials : String) : Option String :=
  if strContains initials "JM" || strContains initials "PM" then some "jmarson"
  else if initials == "MC" then some "madhurima"
  else if initials == "EE" then some "emilio"
  else none

/-- Embedding of `get_paths(run_name, environ_paths)`.  The hostname
(`socket.gethostname()`) and the environment (`os.environ`) are explicit
arguments; a `run_name` of `""` stands for Python `None` (both falsy).
Returns `(data_path, mask_path)` on success. -/
def get_paths (hostname : String) (env : String → Option String)
    (run_name : String) (environ_paths : Bool) :
    Except PathError (String × String) :=
  if !(strContains hostname "portal") || run_name == "" || environ_paths then
    match env "MASK_PATH", env "DATA_PATH" with
    | some mask_path, some data_path => .ok (data_path, mask_path)
    | _, _ => .error .configError
  else if !(strContains run_name "-") then .error .assertFail
  else if !(strContains run_name "ANHA") then .error .assertFail
  else if run_name.length != 12 then .error .assertFail
  else
    match userPathOf (userInitials run_name) with
    | none => .error .invalidRun
    | some user_path =>
        .ok ("/mnt/storage0/" ++ user_path ++ "/NEMO/" ++ model_path run_name ++ "/"
               ++ run_name ++ "-S/",
             "/mnt/storage0/" ++ user_path ++ "/ANALYSES/MASKS/")

/-! ## Date parsing: `get_date` (source lines 80-97) -/

/-- Embedding of `filename.split('_')[-2]`: the date token of a
filename; `none` when the split has fewer than two parts (Python
`IndexError`). -/
def dateToken (filename : String) : Option (List Char) :=
  let parts := splitOnL '_' filename.data
  if 2 ≤ parts.length then some (parts.getD (parts.length - 2) []) else none

/-- Embedding of `get_date(filename, how='m')`:
`int(date[6:8])` of the date token. -/
def get_date_m (filename : String) : Option Nat :=
  (dateToken filename).bind fun d => strToNatL ((d.drop 6).take 2)

/-- Embedding of `get_date(filename, how='ymd')`: the
`(int(date[1:5]), int(date[6:8]), int(date[9:11]))` triple. -/
def get_date_ymd (filename : String) : Option (Nat × Nat × Nat) :=
  (dateToken filename).bind fun d =>
    match strToNatL ((d.drop 1).take 4), strToNatL ((d.drop 6).take 2),
        strToNatL ((d.drop 9).take 2) with
    | some y, some m, some dd => some (y, m, dd)
    | _, _, _ => none

/-! ## File Catalog: `Anhalyze.get_file_list` (source lines 171-238)

The directory listing (`os.listdir(data_path)`) and the resolved
`data_path` are explicit arguments; `self.years` and `self.grid` are the
`years`/`grid` arguments.  A `month_list` of `[]` stands for Python
`None` (both falsy).
-/

/-- Errors of the catalog: `noFileForMonth` is the unguarded
`[ ... ][0]` `IndexError` in the `one_per_month` branch, `badDate` a
`ValueError`/`IndexError` raised by `get_date` on a malformed
filename. -/
inductive CatalogError where
  | noFileForMonth
  | badDate
deriving DecidableEq, Repr

/-- One year's filter of the directory listing:
`[f for f in file_list if '_y' + year in f and '_grid' + grid in f]`. -/
def yearGridFilter (dirListing : List String) (grid year : String) : List String :=
  dirListing.filter fun f => strContains f ("_y" ++ year) && strContains f ("_grid" ++ grid)

/-- The year/grid selection loop of `get_file_list` (source lines
210-211): per-year filtered sublists, each sorted, concatenated in
year-list order. -/
def selectedFiles (dirListing : List String) (years : List String) (grid : String) :
    List String :=
  years.foldl (fun acc y => acc ++ sortStrings (yearGridFilter dirListing grid y)) []

/-- Embedding of `'y{}m{}'.format(year, month)`. -/
def monthStump (year mt : String) : String :=
  "y" ++ year ++ "m" ++ mt

/-- First file of `selected` matching a year/month stump:
`[f for f in selected_file_list if file_name_stump in f][0]`, with
`none` for the empty-list `IndexError`. -/
def firstMonthFile (selected : List String) (year mt : String) : Option String :=
  selected.find? fun f => strContains f (monthStump year mt)

/-- The target month tokens of the `one_per_month` branch: the explicit
`month_list` when given, otherwise `get_date(filename, how='m')` of
every selected file (an `int`, later formatted without zero padding). -/
def monthTokens (selected : List String) (month_list : List String) :
    Except CatalogError (List String) :=
  if month_list.isEmpty then
    selected.mapM fun f =>
      match get_date_m f with
      | some m => Except.ok (natToStr m)
      | none => Except.error CatalogError.badDate
  else
    Except.ok month_list

/-- The `one_per_month` selection loop (source lines 218-222): for each
year and each target month, append the first matching file; error on
the first year/month pair with no match. -/
def pickMonthly (selected : List String) (years mts : List String) :
    Except CatalogError (List String) :=
  years.foldlM
    (fun acc y =>
      mts.foldlM
        (fun acc2 mt =>
          match firstMonthFile selected y mt with
          | some f => Except.ok (acc2 ++ [f])
          | none => Except.error CatalogError.noFileForMonth)
        acc)
    []

/-- The non-`one_per_month` month-selection loop (source lines
225-230): all files matching any requested year/month pair, in loop
order. -/
def monthMatches (selected : List String) (years mts : List String) : List String :=
  years.foldl
    (fun acc y =>
      mts.foldl
        (fun acc2 mt => acc2 ++ selected.filter fun f => strContains f (monthStump y mt))
        acc)
    []

/-- Embedding of `Anhalyze.get_file_list`: year/grid selection, optional
month selection, fallback to the unfiltered selection when the month
selection is empty (source line 232), and data-path prefixing. -/
def get_file_list (data_path : String) (dirListing : List String)
    (years : List String) (grid : String) (month_list : List String)
    (one_per_month : Bool) : Except CatalogError (List String) := do
  let selected := selectedFiles dirListing years grid
  let chosen ←
    if one_per_month then do
      let mts ← monthTokens selected month_list
      let monthly ← pickMonthly selected years mts
      pure (if monthly.isEmpty then selected else monthly)
    else
      let monthly := monthMatches selected years month_list
      pure (if monthly.isEmpty then selected else monthly)
  pure (chosen.map fun f => data_path ++ f)

example : get_paths "portal-x" (fun _ => none) "ANHA4-XYZ004" false
    = .error .invalidRun := by decide

example : get_paths "portal-x" (fun _ => none) "ANHA4-WJM004" false
    = .ok ("/mnt/storage0/jmarson/NEMO/ANHA4/ANHA4-WJM004-S/",
           "/mnt/storage0/jmarson/ANALYSES/MASKS/") := by decide

example : get_file_list "/d/"
    ["R_y1998m02d01_gridT.nc", "R_y1998m01d01_gridT.nc", "R_y1999m01d01_gridT.nc"]
    ["1998"] "T" [] false
    = .ok ["/d/R_y1998m01d01_gridT.nc", "/d/R_y1998m02d01_gridT.nc"] := by decide

example : get_date_m "ANHA4-EPM111_y1998m04d05_gridB.nc" = some 4 := by decide

example : get_date_ymd "ANHA4-EPM111_y1998m04d05_gridB.nc" = some (1998, 4, 5) := by decide

example : get_file_list "/d/" ["R_y1998m01d01_gridT.nc"] ["1998"] "T" [] true
    = .error .noFileForMonth := by decide

example : get_file_list "/d/" ["R_y1998m10d01_gridT.nc"] ["1998"] "T" [] true
    = .ok ["/d/R_y1998m10d01_gridT.nc"] := by decide

/-! ## Spatial Subsetter: `get_row_col_range` (source lines 309-337)

The latitude/longitude grids read from the NetCDF variables are
explicit `List (List ℚ)` arguments; `lat_range`/`lon_range` are pairs.
-/

/-- The per-cell bounding-box predicate of `get_row_col_range` (source
lines 322-323): strict inequalities on both coordinates. -/
def cellIncluded (latR lonR : ℚ × ℚ) (la lo : ℚ) : Bool :=
  (latR.1 < la && la < latR.2) && (lonR.1 < lo && lo < lonR.2)

/-- One row of the boolean inclusion mask `lat_mask & lon_mask`. -/
def inclMaskRow (latR lonR : ℚ × ℚ) (lrow orow : List ℚ) : List Bool :=
  List.zipWith (fun la lo => cellIncluded latR lonR la lo) lrow orow

/-- The boolean inclusion mask of the whole grid. -/
def inclusionMask (lat lon : List (List ℚ)) (latR lonR : ℚ × ℚ) : List (List Bool) :=
  List.zipWith (fun lrow orow => inclMaskRow latR lonR lrow orow) lat lon

/-- One row of `mask` after `mask[~(lat_mask & lon_mask)] = 0` (source
lines 326-327): the latitude value on included cells, `0` elsewhere. -/
def maskedRow (latR lonR : ℚ × ℚ) (lrow orow : List ℚ) : List ℚ :=
  List.zipWith (fun la lo => if cellIncluded latR lonR la lo then la else 0) lrow orow

/-- The zeroed latitude array `mask` of `get_row_col_range`. -/
def maskedLat (lat lon : List (List ℚ)) (latR lonR : ℚ × ℚ) : List (List ℚ) :=
  List.zipWith (fun lrow orow => maskedRow latR lonR lrow orow) lat lon

/-- Embedding of `mask.data.sum(axis=1)`: one sum per row. -/
def rowSums (m : List (List ℚ)) : List ℚ :=
  m.map List.sum

/-- Number of columns of a 2-D array (numpy `shape[1]`). -/
def nCols (m : List (List ℚ)) : Nat :=
  (m.headD []).length

/-- Embedding of `mask.data.sum(axis=0)`: one sum per column. -/
def colSums (m : List (List ℚ)) : List ℚ :=
  (List.range (nCols m)).map fun j => (m.map fun row => row.getD j 0).sum

/-- Embedding of `np.where(sums > 0)[0]`: the indices whose sum is
positive. -/
def posIdx (xs : List ℚ) : List Nat :=
  (List.range xs.length).filter fun i => decide (0 < xs.getD i 0)

/-- Embedding of `get_row_col_range(data, lat_range, lon_range)` for the
T grid: build the strict bounding-box mask, zero the latitude array
outside it, collapse by row/column sums, and return
`((row_ranges[0], row_ranges[-1]), (col_ranges[0], col_ranges[-1]))`;
`none` is the `IndexError` raised when a candidate list is empty. -/
def get_row_col_range (lat lon : List (List ℚ)) (latR lonR : ℚ × ℚ) :
    Option ((Nat × Nat) × (Nat × Nat)) :=
  let m := maskedLat lat lon latR lonR
  match posIdx (rowSums m), posIdx (colSums m) with
  | r :: rs, c :: cs => some ((r, rs.getLastD r), (c, cs.getLastD c))
  | _, _ => none

/-- Rows that contain at least one cell satisfying the bounding-box
predicate.  Stated from the specification's words ("row indices
containing a qualifying cell") for comparison with the collapse the
source actually performs. -/
def specQualRows (lat lon : List (List ℚ)) (latR lonR : ℚ × ℚ) : List Nat :=
  (List.range (inclusionMask lat lon latR lonR).length).filter fun i =>
    ((inclusionMask lat lon latR lonR).getD i []).any id

/-- Columns that contain at least one cell satisfying the bounding-box
predicate; spec-side counterpart of `specQualRows`. -/
def specQualCols (lat lon : List (List ℚ)) (latR lonR : ℚ × ℚ) : List Nat :=
  (List.range (nCols lat)).filter fun j =>
    (inclusionMask lat lon latR lonR).any fun row => row.getD j false

/-! ## Statistics Aggregator: `calc_stats_var_data` (source lines 425-442)

The extracted 2-D field (`get_var_data`, an external NetCDF read plus
masking) is an explicit argument: a `List (List (Option ℚ))` with
`none` for a `NaN` (masked/missing) cell.
-/

/-- The present (non-`NaN`) values of a field, in row-major order. -/
def flatVals (field : List (List (Option ℚ))) : List ℚ :=
  field.flatten.reduceOption

/-- Embedding of `np.nanmean`: mean of the present values, `NaN`
(`none`) when every cell is missing. -/
def nanmean (field : List (List (Option ℚ))) : Option ℚ :=
  let vs := flatVals field
  if vs.isEmpty then none else some (vs.sum / (vs.length : ℚ))

/-- Embedding of the square of `np.nanstd` (population variance over
the present values): the source's standard deviation is the square
root of this quantity, which in general leaves `ℚ`; all claims about
`np.nanstd` here (missing-cell exclusion, all-missing behaviour) are
claims about this quantity. -/
def nanvar (field : List (List (Option ℚ))) : Option ℚ :=
  let vs := flatVals field
  if vs.isEmpty then none
  else
    let μ := vs.sum / (vs.length : ℚ)
    some ((vs.map fun x => (x - μ) * (x - μ)).sum / (vs.length : ℚ))

/-- Embedding of `np.nanmin`: least present value, `NaN` (`none`) when
every cell is missing. -/
def nanmin (field : List (List (Option ℚ))) : Option ℚ :=
  match flatVals field with
  | [] => none
  | v :: vs => some (vs.foldl min v)

/-- Embedding of `np.nanmax`: greatest present value, `NaN` (`none`)
when every cell is missing. -/
def nanmax (field : List (List (Option ℚ))) : Option ℚ :=
  match flatVals field with
  | [] => none
  | v :: vs => some (vs.foldl max v)

/-- Embedding of `calc_stats_var_data` on an already-extracted field:
`(mean, std)` when `no_min_max`, `(mean, std, min, max)` otherwise
(the optional pair carries the extra two results). -/
def calc_stats_var_data (field : List (List (Option ℚ))) (no_min_max : Bool) :
    (Option ℚ × Option ℚ) × Option (Option ℚ × Option ℚ) :=
  ((nanmean field, nanvar field),
   if no_min_max then none else some (nanmin field, nanmax field))

example : get_row_col_range [[-5], [5]] [[0], [0]] (-10, 10) (-1, 1) = none := by decide

example : nanmean [[some 1, some 2], [some 3, none]] = some 2 := by decide

example : nanvar [[some 1, some 2], [some 3, none]] = some (2/3) := by decide

example : calc_stats_var_data [[none, none], [none, none]] false
    = ((none, none), some (none, none)) := by decide

/-! ## Time-Series Builder: `get_timeseries` (source lines 445-491)

The per-file NetCDF read plus spatial extraction (`nc.Dataset` and
`get_var_data`) is abstracted into the oracle `fieldOf`, mapping a
filename to its extracted field.  The source initializes the
accumulators with `var_means = var_stds = []` and
`var_mins = var_maxs = []`: each statement binds TWO names to ONE
list object, so the embedding carries a single list `ms` for both
mean and standard-deviation appends, and a single list `mm` for both
min and max appends.
-/

/-- Errors of `get_timeseries`: `columnLengthMismatch` is the
`ValueError` pandas raises when `pd.DataFrame` is given columns of
different lengths, `badTimeDate` a date-parsing failure in
`get_date`. -/
inductive TSError where
  | columnLengthMismatch
  | badTimeDate
deriving DecidableEq, Repr

/-- The time-series table: the result of the `pd.DataFrame` call, one
column per key. -/
structure Timeseries where
  dates : List (Nat × Nat × Nat)
  var_mean : List (Option ℚ)
  var_std : List (Option ℚ)
  var_min : Option (List (Option ℚ))
  var_max : Option (List (Option ℚ))
deriving DecidableEq, Repr

/-- Embedding of the `pd.DataFrame({...})` constructor: all supplied
columns must have the same length, otherwise pandas raises
`ValueError`. -/
def mkDataFrame (dates : List (Nat × Nat × Nat)) (means stds : List (Option ℚ))
    (mm : Option (List (Option ℚ) × List (Option ℚ))) : Except TSError Timeseries :=
  match mm with
  | none =>
      if dates.length = means.length ∧ means.length = stds.length then
        .ok ⟨dates, means, stds, none, none⟩
      else .error .columnLengthMismatch
  | some (mins, maxs) =>
      if dates.length = means.length ∧ means.length = stds.length
          ∧ stds.length = mins.length ∧ mins.length = maxs.length then
        .ok ⟨dates, means, stds, some mins, some maxs⟩
      else .error .columnLengthMismatch

/-- Embedding of `get_timeseries(file_list, ...)`.  The loop body
computes the per-file statistics, parses the date and appends; because
`var_means` and `var_stds` alias one list (and `var_mins`/`var_maxs`
another), both appends land in the shared accumulators `ms` and `mm`,
which are then passed for BOTH columns to the DataFrame constructor,
exactly as the aliased names are in the source. -/
def get_timeseries (fieldOf : String → List (List (Option ℚ)))
    (file_list : List String) (no_min_max : Bool) : Except TSError Timeseries := do
  let (dates, ms, mm) ←
    file_list.foldlM
      (fun (st : List (Nat × Nat × Nat) × List (Option ℚ) × List (Option ℚ)) f => do
        let (dates, ms, mm) := st
        let field := fieldOf f
        let var_mean := nanmean field
        let var_std := nanvar field
        let date ←
          match get_date_ymd f with
          | some d => Except.ok d
          | none => Except.error TSError.badTimeDate
        let ms := ms ++ [var_mean] ++ [var_std]
        let mm := if no_min_max then mm else mm ++ [nanmin field] ++ [nanmax field]
        pure (dates ++ [date], ms, mm))
      ([], [], [])
  if no_min_max then mkDataFrame dates ms ms none
  else mkDataFrame dates ms ms (some (mm, mm))

/-! ## Climatology thresholds: `calc_timeseries` (source lines 520-556)

The `'add_'` (marine-heatwave) and `'remove_'` (cold-spell) branches of
`calc_timeseries` operate column-wise on the broadcast climatological
mean (`var_mean_mean`) and quantile (`var_mean_quantile`); the two
columns are explicit list arguments here.  `none` embeds the
`action_timeseries = None` fallthrough.
-/

/-- Embedding of the `elif 'add_' in action` branch of
`calc_timeseries` in its non-`'long'` case: `delta_t` is
`quantile - mean`, and the `'2T'`/`'3T'`/`'4T'` substring dispatch
yields `mean + k*delta_t`. -/
def calc_timeseries_add (action : String)
    (var_mean_mean var_mean_quantile : List ℚ) : Option (List ℚ) :=
  let delta_t := List.zipWith (fun q m => q - m) var_mean_quantile var_mean_mean
  if strContains action "2T" then
    some (List.zipWith (fun m d => m + 2 * d) var_mean_mean delta_t)
  else if strContains action "3T" then
    some (List.zipWith (fun m d => m + 3 * d) var_mean_mean delta_t)
  else if strContains action "4T" then
    some (List.zipWith (fun m d => m + 4 * d) var_mean_mean delta_t)
  else none

/-- Embedding of the `elif 'remove_' in action` branch of
`calc_timeseries`: `delta_t` is `mean - quantile`, and the
`'2T'`/`'3T'`/`'4T'` substring dispatch yields `mean - k*delta_t`. -/
def calc_timeseries_remove (action : String)
    (var_mean_mean var_mean_quantile : List ℚ) : Option (List ℚ) :=
  let delta_t := List.zipWith (fun m q => m - q) var_mean_mean var_mean_quantile
  if strContains action "2T" then
    some (List.zipWith (fun m d => m - 2 * d) var_mean_mean delta_t)
  else if strContains action "3T" then
    some (List.zipWith (fun m d => m - 3 * d) var_mean_mean delta_t)
  else if strContains action "4T" then
    some (List.zipWith (fun m d => m - 4 * d) var_mean_mean delta_t)
  else none

example : get_timeseries (fun _ => [[some 1, some 2], [some 3, none]])
    ["ANHA4-EPM111_y1998m04d05_gridT.nc"] true
    = .error .columnLengthMismatch := by decide

example : get_timeseries (fun _ => [[some 1, some 2], [some 3, none]]) [] true
    = .ok ⟨[], [], [], none, none⟩ := by decide

example : calc_timeseries_add "add_2T" [1] [2] = some [3] := by decide

example : calc_timeseries_remove "remove_3T" [5] [4] = some [2] := by decide

/-! ## Claim theorems: Path Resolver -/

/-- C5: in deployment mode (hostname contains `portal`, run name given,
`environ_paths` unset), a run identifier that passes the format asserts
and whose user code is in the lookup table resolves to data and mask
paths that are a fixed interpolation of the identifier alone — the same
for every environment; a well-formed identifier with an unrecognized
user code such as `"ANHA4-XYZ004"` raises the `ValueError`
(`invalidRun`). -/
theorem get_paths_deployment (host run u : String) (env : String → Option String)
    (hhost : strContains host "portal" = true)
    (hsep : strContains run "-" = true)
    (hanha : strContains run "ANHA" = true)
    (hlen : run.length = 12)
    (huser : userPathOf (userInitials run) = some u) :
    get_paths host env run false
      = .ok ("/mnt/storage0/" ++ u ++ "/NEMO/" ++ model_path run ++ "/" ++ run ++ "-S/",
             "/mnt/storage0/" ++ u ++ "/ANALYSES/MASKS/")
    ∧ get_paths host env "ANHA4-XYZ004" false = .error .invalidRun := by
  have hne : (run == "") = false := by
    refine beq_eq_false_iff_ne.mpr fun h => ?_
    subst h
    simp at hlen
  constructor
  · simp [get_paths, hhost, hne, hsep, hanha, hlen, huser]
  · have h1 : strContains "ANHA4-XYZ004" "-" = true := by decide
    have h2 : strContains "ANHA4-XYZ004" "ANHA" = true := by decide
    have h3 : userPathOf (userInitials "ANHA4-XYZ004") = none := by decide
    have h4 : ("ANHA4-XYZ004" : String).length = 12 := by decide
    simp [get_paths, hhost, h1, h2, h3, h4]

/-- Witness for C5 at the identifiers named by the specification. -/
theorem get_paths_deployment_witness :
    get_paths "portal-machine" (fun _ => none) "ANHA4-WJM004" false
      = .ok ("/mnt/storage0/jmarson/NEMO/ANHA4/ANHA4-WJM004-S/",
             "/mnt/storage0/jmarson/ANALYSES/MASKS/")
    ∧ get_paths "portal-machine" (fun _ => none) "ANHA4-XYZ004" false
      = .error .invalidRun :=
  get_paths_deployment "portal-machine" "ANHA4-WJM004" "jmarson" (fun _ => none)
    (by decide) (by decide) (by decide) (by decide) (by decide)

/-- C6: whenever the environment branch applies (hostname without
`portal`, or no run name, or `environ_paths` forced), a missing
`MASK_PATH` or `DATA_PATH` environment variable makes `get_paths` fail
(the printed remediation message followed by the unbound-local fault at
the `return`, modelled as `configError`), and when both are set it
returns them as `(data_path, mask_path)`. -/
theorem get_paths_environment (host run : String) (env : String → Option String)
    (environ_paths : Bool)
    (hmode : strContains host "portal" = false ∨ run = "" ∨ environ_paths = true) :
    (env "MASK_PATH" = none ∨ env "DATA_PATH" = none →
      get_paths host env run environ_paths = .error .configError)
    ∧ (∀ mp dp, env "MASK_PATH" = some mp → env "DATA_PATH" = some dp →
      get_paths host env run environ_paths = .ok (dp, mp)) := by
  have hcond : (!(strContains host "portal") || run == "" || environ_paths) = true := by
    rcases hmode with h | h | h
    · simp [h]
    · simp [h]
    · simp [h]
  constructor
  · intro hmiss
    cases hm : env "MASK_PATH" <;> cases hd : env "DATA_PATH" <;>
      simp [get_paths, hcond, hm, hd] <;> rcases hmiss with h | h <;> simp_all
  · intro mp dp hm hd
    simp [get_paths, hcond, hm, hd]

/-- Witness for C6: both variables set on a non-deployment host, and a
missing variable on the same host. -/
theorem get_paths_environment_witness :
    get_paths "laptop" (fun v => if v == "MASK_PATH" then some "/m/" else some "/d/")
      "" false = .ok ("/d/", "/m/")
    ∧ get_paths "laptop" (fun _ => none) "" false = .error .configError :=
  ⟨(get_paths_environment "laptop" ""
      (fun v => if v == "MASK_PATH" then some "/m/" else some "/d/") false
      (.inr (.inl rfl))).2 "/m/" "/d/" rfl rfl,
   (get_paths_environment "laptop" "" (fun _ => none) false
      (.inr (.inl rfl))).1 (.inl rfl)⟩

/-! ## Claim theorems: climatology thresholds -/

/-- Reading a `zipWith` at an in-bounds index. -/
theorem getD_zipWith (f : ℚ → ℚ → ℚ) (a b : List ℚ) (i : Nat)
    (ha : i < a.length) (hb : i < b.length) :
    (List.zipWith f a b).getD i 0 = f (a.getD i 0) (b.getD i 0) := by
  induction a generalizing b i with
  | nil => simp at ha
  | cons x xs ih =>
    cases b with
    | nil => simp at hb
    | cons y ys =>
      cases i with
      | zero => simp
      | succ n => simpa using ih ys n (by simpa using ha) (by simpa using hb)

/-- C2: per row, the heatwave branch emits threshold level `k` equal to
`mean + k*(quantile - mean)` and the cold-spell branch
`mean - k*(mean - quantile)` for `k ∈ {2,3,4}`; consequently the
heatwave thresholds satisfy `mean ≤ t2 ≤ t3 ≤ t4` whenever
`quantile ≥ mean`, and the cold-spell thresholds the reverse ordering
whenever `mean ≥ quantile`. -/
theorem calc_timeseries_threshold_levels (m q : List ℚ) (i : Nat)
    (him : i < m.length) (hiq : i < q.length) :
    ((calc_timeseries_add "add_2T" m q).getD []).getD i 0
        = m.getD i 0 + 2 * (q.getD i 0 - m.getD i 0)
    ∧ ((calc_timeseries_add "add_3T" m q).getD []).getD i 0
        = m.getD i 0 + 3 * (q.getD i 0 - m.getD i 0)
    ∧ ((calc_timeseries_add "add_4T" m q).getD []).getD i 0
        = m.getD i 0 + 4 * (q.getD i 0 - m.getD i 0)
    ∧ ((calc_timeseries_remove "remove_2T" m q).getD []).getD i 0
        = m.getD i 0 - 2 * (m.getD i 0 - q.getD i 0)
    ∧ ((calc_timeseries_remove "remove_3T" m q).getD []).getD i 0
        = m.getD i 0 - 3 * (m.getD i 0 - q.getD i 0)
    ∧ ((calc_timeseries_remove "remove_4T" m q).getD []).getD i 0
        = m.getD i 0 - 4 * (m.getD i 0 - q.getD i 0)
    ∧ (m.getD i 0 ≤ q.getD i 0 →
        m.getD i 0 ≤ ((calc_timeseries_add "add_2T" m q).getD []).getD i 0
        ∧ ((calc_timeseries_add "add_2T" m q).getD []).getD i 0
            ≤ ((calc_timeseries_add "add_3T" m q).getD []).getD i 0
        ∧ ((calc_timeseries_add "add_3T" m q).getD []).getD i 0
            ≤ ((calc_timeseries_add "add_4T" m q).getD []).getD i 0)
    ∧ (q.getD i 0 ≤ m.getD i 0 →
        ((calc_timeseries_remove "remove_4T" m q).getD []).getD i 0
            ≤ ((calc_timeseries_remove "remove_3T" m q).getD []).getD i 0
        ∧ ((calc_timeseries_remove "remove_3T" m q).getD []).getD i 0
            ≤ ((calc_timeseries_remove "remove_2T" m q).getD []).getD i 0
        ∧ ((calc_timeseries_remove "remove_2T" m q).getD []).getD i 0 ≤ m.getD i 0) := by
  have hda : i < (List.zipWith (fun x y => x - y) q m).length := by
    rw [List.length_zipWith]
    exact lt_min hiq him
  have hdr : i < (List.zipWith (fun x y => x - y) m q).length := by
    rw [List.length_zipWith]
    exact lt_min him hiq
  have ea : ∀ k : ℚ, (List.zipWith (fun x d => x + k * d) m
      (List.zipWith (fun x y => x - y) q m)).getD i 0
      = m.getD i 0 + k * (q.getD i 0 - m.getD i 0) := by
    intro k
    rw [getD_zipWith _ m _ i him hda, getD_zipWith _ q m i hiq him]
  have er : ∀ k : ℚ, (List.zipWith (fun x d => x - k * d) m
      (List.zipWith (fun x y => x - y) m q)).getD i 0
      = m.getD i 0 - k * (m.getD i 0 - q.getD i 0) := by
    intro k
    rw [getD_zipWith _ m _ i him hdr, getD_zipWith _ m q i him hiq]
  have e2 : ((calc_timeseries_add "add_2T" m q).getD []).getD i 0
      = m.getD i 0 + 2 * (q.getD i 0 - m.getD i 0) := by
    rw [show calc_timeseries_add "add_2T" m q
        = some (List.zipWith (fun x d => x + 2 * d) m
            (List.zipWith (fun x y => x - y) q m)) by
      simp [calc_timeseries_add, show strContains "add_2T" "2T" = true by decide]]
    exact ea 2
  have e3 : ((calc_timeseries_add "add_3T" m q).getD []).getD i 0
      = m.getD i 0 + 3 * (q.getD i 0 - m.getD i 0) := by
    rw [show calc_timeseries_add "add_3T" m q
        = some (List.zipWith (fun x d => x + 3 * d) m
            (List.zipWith (fun x y => x - y) q m)) by
      simp [calc_timeseries_add, show strContains "add_3T" "2T" = false by decide,
        show strContains "add_3T" "3T" = true by decide]]
    exact ea 3
  have e4 : ((calc_timeseries_add "add_4T" m q).getD []).getD i 0
      = m.getD i 0 + 4 * (q.getD i 0 - m.getD i 0) := by
    rw [show calc_timeseries_add "add_4T" m q
        = some (List.zipWith (fun x d => x + 4 * d) m
            (List.zipWith (fun x y => x - y) q m)) by
      simp [calc_timeseries_add, show strContains "add_4T" "2T" = false by decide,
        show strContains "add_4T" "3T" = false by decide,
        show strContains "add_4T" "4T" = true by decide]]
    exact ea 4
  have f2 : ((calc_timeseries_remove "remove_2T" m q).getD []).getD i 0
      = m.getD i 0 - 2 * (m.getD i 0 - q.getD i 0) := by
    rw [show calc_timeseries_remove "remove_2T" m q
        = some (List.zipWith (fun x d => x - 2 * d) m
            (List.zipWith (fun x y => x - y) m q)) by
      simp [calc_timeseries_remove, show strContains "remove_2T" "2T" = true by decide]]
    exact er 2
  have f3 : ((calc_timeseries_remove "remove_3T" m q).getD []).getD i 0
      = m.getD i 0 - 3 * (m.getD i 0 - q.getD i 0) := by
    rw [show calc_timeseries_remove "remove_3T" m q
        = some (List.zipWith (fun x d => x - 3 * d) m
            (List.zipWith (fun x y => x - y) m q)) by
      simp [calc_timeseries_remove, show strContains "remove_3T" "2T" = false by decide,
        show strContains "remove_3T" "3T" = true by decide]]
    exact er 3
  have f4 : ((calc_timeseries_remove "remove_4T" m q).getD []).getD i 0
      = m.getD i 0 - 4 * (m.getD i 0 - q.getD i 0) := by
    rw [show calc_timeseries_remove "remove_4T" m q
        = some (List.zipWith (fun x d => x - 4 * d) m
            (List.zipWith (fun x y => x - y) m q)) by
      simp [calc_timeseries_remove, show strContains "remove_4T" "2T" = false by decide,
        show strContains "remove_4T" "3T" = false by decide,
        show strContains "remove_4T" "4T" = true by decide]]
    exact er 4
  refine ⟨e2, e3, e4, f2, f3, f4, fun hle => ?_, fun hge => ?_⟩
  · rw [e2, e3, e4]
    refine ⟨by linarith, by linarith, by linarith⟩
  · rw [f2, f3, f4]
    refine ⟨by linarith, by linarith, by linarith⟩

/-- Witness for C2 at the one-row series with mean `1`, quantile `2`. -/
theorem calc_timeseries_threshold_levels_witness :
    (0 : Nat) < [(1 : ℚ)].length
    ∧ ((calc_timeseries_add "add_2T" [(1 : ℚ)] [(2 : ℚ)]).getD []).getD 0 0
      = (1 : ℚ) + 2 * (2 - 1) :=
  ⟨by decide, (calc_timeseries_threshold_levels [1] [2] 0 (by decide) (by decide)).1⟩

/-! ## Claim theorems: Spatial Subsetter -/

/-- All cells of a masked row vanish when no cell of the row is
included. -/
theorem maskedRow_all_zero (latR lonR : ℚ × ℚ) (lrow : List ℚ) :
    ∀ orow : List ℚ, (∀ b ∈ inclMaskRow latR lonR lrow orow, b = false) →
      ∀ x ∈ maskedRow latR lonR lrow orow, x = 0 := by
  induction lrow with
  | nil => intro orow _ x hx; simp [maskedRow] at hx
  | cons la ls ih =>
    intro orow h x hx
    cases orow with
    | nil => simp [maskedRow] at hx
    | cons lo os =>
      simp only [maskedRow, List.zipWith_cons_cons, List.mem_cons] at hx
      simp only [inclMaskRow, List.zipWith_cons_cons, List.mem_cons] at h
      rcases hx with rfl | hx
      · have hb : cellIncluded latR lonR la lo = false := h _ (Or.inl rfl)
        simp [hb]
      · exact ih os (fun b hb => h b (Or.inr (by simpa [inclMaskRow] using hb))) x
          (by simpa [maskedRow] using hx)

/-- All rows of the masked latitude array vanish when no cell of the
grid is included. -/
theorem maskedLat_all_zero (lat : List (List ℚ)) (latR lonR : ℚ × ℚ) :
    ∀ lon : List (List ℚ),
      (∀ row ∈ inclusionMask lat lon latR lonR, ∀ b ∈ row, b = false) →
      ∀ row ∈ maskedLat lat lon latR lonR, ∀ x ∈ row, x = 0 := by
  induction lat with
  | nil => intro lon _ row hrow; simp [maskedLat] at hrow
  | cons lr ls ih =>
    intro lon h row hrow
    cases lon with
    | nil => simp [maskedLat] at hrow
    | cons orow os =>
      simp only [maskedLat, List.zipWith_cons_cons, List.mem_cons] at hrow
      simp only [inclusionMask, List.zipWith_cons_cons, List.mem_cons] at h
      rcases hrow with rfl | hrow
      · exact maskedRow_all_zero latR lonR lr orow (fun b hb => h _ (Or.inl rfl) b hb)
      · exact ih os (fun r hr b hb => h r (Or.inr (by simpa [inclusionMask] using hr)) b hb)
          row (by simpa [maskedLat] using hrow)

/-- A list of zeros has no positive entry. -/
theorem posIdx_nil_of_zero (xs : List ℚ) (h : ∀ x ∈ xs, x = 0) : posIdx xs = [] := by
  unfold posIdx
  rw [List.filter_eq_nil_iff]
  intro i hi
  simp only [List.mem_range] at hi
  have hx : xs.getD i 0 = 0 := h _ (by rw [List.getD_eq_getElem _ _ hi]; exact List.getElem_mem hi)
  simp only [hx]
  decide

/-- C4: when no grid cell satisfies both strict bounding-box
predicates, every masked latitude is zero, both collapsed candidate
lists are empty and `get_row_col_range` fails (the `IndexError` on
`row_ranges[0]`, the legacy form of `EmptyRegionError`) instead of
returning a range. -/
theorem get_row_col_range_empty_region (lat lon : List (List ℚ)) (latR lonR : ℚ × ℚ) :
    ((∀ row ∈ inclusionMask lat lon latR lonR, ∀ b ∈ row, b = false) →
      get_row_col_range lat lon latR lonR = none)
    ∧ (posIdx (rowSums (maskedLat lat lon latR lonR)) = []
        ∨ posIdx (colSums (maskedLat lat lon latR lonR)) = [] →
      get_row_col_range lat lon latR lonR = none) := by
  have hcand : posIdx (rowSums (maskedLat lat lon latR lonR)) = []
      ∨ posIdx (colSums (maskedLat lat lon latR lonR)) = [] →
      get_row_col_range lat lon latR lonR = none := by
    intro hc
    rcases hc with hr | hc2
    · simp only [get_row_col_range, hr]
    · simp only [get_row_col_range, hc2]
      cases posIdx (rowSums (maskedLat lat lon latR lonR)) with
      | nil => rfl
      | cons r rs => rfl
  refine ⟨fun h => ?_, hcand⟩
  have hz := maskedLat_all_zero lat latR lonR lon h
  have hrows : posIdx (rowSums (maskedLat lat lon latR lonR)) = [] := by
    apply posIdx_nil_of_zero
    intro x hx
    simp only [rowSums, List.mem_map] at hx
    obtain ⟨row, hrow, rfl⟩ := hx
    exact List.sum_eq_zero (hz row hrow)
  exact hcand (Or.inl hrows)

/-- Witness for C4: a bounding box that excludes the whole grid. -/
theorem get_row_col_range_empty_region_witness :
    (∀ row ∈ inclusionMask [[(50 : ℚ)]] [[(0 : ℚ)]] (0, 10) (20, 30), ∀ b ∈ row, b = false)
    ∧ get_row_col_range [[(50 : ℚ)]] [[(0 : ℚ)]] (0, 10) (20, 30) = none :=
  ⟨by decide,
   (get_row_col_range_empty_region [[(50 : ℚ)]] [[(0 : ℚ)]] (0, 10) (20, 30)).1 (by decide)⟩

/-- C3 counterexample: on the 2×1 grid with latitudes −5 and 5 and a
bounding box containing both cells, every cell qualifies (rows 0 and 1,
column 0), yet `get_row_col_range` returns no range at all — the
collapse tests `sum > 0` on latitude VALUES, and the lone column sums
to `−5 + 5 = 0` — refuting the claim that the ranges are the first and
last row/column indices containing a qualifying cell. -/
theorem get_row_col_range_counterexample :
    cellIncluded (-10, 10) (-1, 1) (-5) 0 = true
    ∧ specQualRows [[-5], [5]] [[0], [0]] (-10, 10) (-1, 1) = [0, 1]
    ∧ specQualCols [[-5], [5]] [[0], [0]] (-10, 10) (-1, 1) = [0]
    ∧ get_row_col_range [[-5], [5]] [[0], [0]] (-10, 10) (-1, 1) = none := by
  exact ⟨by decide, by decide, by decide, by decide⟩

/-- Entries of a masked row are bounded below by zero when the row's
latitudes are positive. -/
theorem maskedRow_nonneg (latR lonR : ℚ × ℚ) (lrow : List ℚ) :
    ∀ orow : List ℚ, (∀ v ∈ lrow, 0 < v) →
      ∀ x ∈ maskedRow latR lonR lrow orow, 0 ≤ x := by
  induction lrow with
  | nil => intro orow _ x hx; simp [maskedRow] at hx
  | cons la ls ih =>
    intro orow hpos x hx
    cases orow with
    | nil => simp [maskedRow] at hx
    | cons lo os =>
      simp only [maskedRow, List.zipWith_cons_cons, List.mem_cons] at hx
      rcases hx with rfl | hx
      · split
        · exact le_of_lt (hpos la (List.mem_cons_self la ls))
        · exact le_refl 0
      · exact ih os (fun v hv => hpos v (List.mem_cons_of_mem la hv)) x
          (by simpa [maskedRow] using hx)

/-- Along a positive-latitude row, the masked sum is positive exactly
when some cell of the row is included. -/
theorem maskedRow_sum_pos_iff (latR lonR : ℚ × ℚ) (lrow : List ℚ) :
    ∀ orow : List ℚ, (∀ v ∈ lrow, 0 < v) →
      (0 < (maskedRow latR lonR lrow orow).sum ↔
        (inclMaskRow latR lonR lrow orow).any id = true) := by
  induction lrow with
  | nil => intro orow _; simp [maskedRow, inclMaskRow]
  | cons la ls ih =>
    intro orow hpos
    cases orow with
    | nil => simp [maskedRow, inclMaskRow]
    | cons lo os =>
      have hla : 0 < la := hpos la (List.mem_cons_self la ls)
      have hpt : ∀ v ∈ ls, 0 < v := fun v hv => hpos v (List.mem_cons_of_mem la hv)
      have hhead : 0 ≤ (if cellIncluded latR lonR la lo then la else 0) := by
        split
        · exact le_of_lt hla
        · exact le_refl 0
      have htail : 0 ≤ (maskedRow latR lonR ls os).sum :=
        List.sum_nonneg (maskedRow_nonneg latR lonR ls os hpt)
      simp only [maskedRow] at htail
      simp only [maskedRow, inclMaskRow, List.zipWith_cons_cons, List.sum_cons,
        List.any_cons, id, Bool.or_eq_true]
      constructor
      · intro h
        by_cases hb : cellIncluded latR lonR la lo = true
        · exact Or.inl hb
        · refine Or.inr (((ih os hpt).mp ?_))
          simp only [Bool.not_eq_true] at hb
          simp only [hb, if_false, zero_add] at h
          simpa [maskedRow] using h
      · intro h
        rcases h with hb | hb
        · rw [hb, if_pos rfl]
          linarith
        · have := (ih os hpt).mpr (by simpa [inclMaskRow] using hb)
          have h2 : 0 < (maskedRow latR lonR ls os).sum := this
          simp only [maskedRow] at h2
          linarith

/-- Positional reading of a masked row against the inclusion mask:
with equal row lengths and positive latitudes, position `j` of the
masked row is positive exactly when position `j` of the mask row is
set (out-of-range positions read the defaults `0` and `false`). -/
theorem maskedRow_getD_pos_iff (latR lonR : ℚ × ℚ) (lrow orow : List ℚ) (j : Nat)
    (hlen : lrow.length = orow.length) (hpos : ∀ v ∈ lrow, 0 < v) :
    (0 < (maskedRow latR lonR lrow orow).getD j 0 ↔
      (inclMaskRow latR lonR lrow orow).getD j false = true) := by
  have hm : (maskedRow latR lonR lrow orow).length = lrow.length := by
    simp [maskedRow, List.length_zipWith, hlen]
  have hb : (inclMaskRow latR lonR lrow orow).length = lrow.length := by
    simp [inclMaskRow, List.length_zipWith, hlen]
  by_cases hj : j < lrow.length
  · rw [List.getD_eq_getElem _ _ (by omega : j < (maskedRow latR lonR lrow orow).length),
      List.getD_eq_getElem _ _ (by omega : j < (inclMaskRow latR lonR lrow orow).length)]
    simp only [maskedRow, inclMaskRow, List.getElem_zipWith]
    by_cases hc : cellIncluded latR lonR (lrow.get ⟨j, hj⟩) (orow.get ⟨j, by omega⟩) = true
    · simp only [List.get_eq_getElem] at hc
      simp [hc]
      exact hpos _ (List.getElem_mem hj)
    · simp only [List.get_eq_getElem] at hc
      simp only [Bool.not_eq_true] at hc
      simp [hc]
  · rw [List.getD_eq_default _ _ (by omega), List.getD_eq_default _ _ (by omega)]
    simp

/-- Positional entries of a masked row are bounded below by zero when
the row's latitudes are positive. -/
theorem maskedRow_getD_nonneg (latR lonR : ℚ × ℚ) (lrow orow : List ℚ) (j : Nat)
    (hpos : ∀ v ∈ lrow, 0 < v) :
    0 ≤ (maskedRow latR lonR lrow orow).getD j 0 := by
  by_cases hj : j < (maskedRow latR lonR lrow orow).length
  · rw [List.getD_eq_getElem _ _ hj]
    exact maskedRow_nonneg latR lonR lrow orow hpos _ (List.getElem_mem hj)
  · rw [List.getD_eq_default _ _ (by omega)]

/-- Helper: a pointwise property of `zipWith` results that only
depends on the left argument lifts to every member. -/
theorem zipWith_mem_of_left {α β γ : Type} (f : α → β → γ) (P : γ → Prop) :
    ∀ (as : List α) (bs : List β), (∀ a ∈ as, ∀ b, P (f a b)) →
      ∀ x ∈ List.zipWith f as bs, P x := by
  intro as
  induction as with
  | nil => intro bs _ x hx; simp at hx
  | cons a as ih =>
    intro bs h x hx
    cases bs with
    | nil => simp at hx
    | cons b bs =>
      simp only [List.zipWith_cons_cons, List.mem_cons] at hx
      rcases hx with rfl | hx
      · exact h a (List.mem_cons_self a as) b
      · exact ih bs (fun a ha b => h a (List.mem_cons_of_mem _ ha) b) x hx

/-- Down a positive-latitude grid, the sum of column `j` of the masked
array is positive exactly when some row's inclusion mask is set at
position `j`. -/
theorem colEntry_pos_iff (latR lonR : ℚ × ℚ) (j : Nat) :
    ∀ (lat lon : List (List ℚ)),
      List.Forall₂ (fun lr orow => lr.length = orow.length) lat lon →
      (∀ row ∈ lat, ∀ v ∈ row, 0 < v) →
      (0 < ((maskedLat lat lon latR lonR).map fun row => row.getD j 0).sum ↔
        ((inclusionMask lat lon latR lonR).any fun row => row.getD j false) = true) := by
  intro lat lon hshape
  induction hshape with
  | nil => intro _; simp [maskedLat, inclusionMask]
  | @cons lr orow ls os hlen _ ih =>
    intro hpos
    have hph : ∀ v ∈ lr, 0 < v := hpos lr (List.mem_cons_self lr ls)
    have hpt : ∀ row ∈ ls, ∀ v ∈ row, 0 < v :=
      fun row hr => hpos row (List.mem_cons_of_mem lr hr)
    have hhead : 0 ≤ (maskedRow latR lonR lr orow).getD j 0 :=
      maskedRow_getD_nonneg latR lonR lr orow j hph
    have htail : 0 ≤ ((maskedLat ls os latR lonR).map fun row => row.getD j 0).sum := by
      apply List.sum_nonneg
      intro x hx
      simp only [List.mem_map] at hx
      obtain ⟨row, hrow, rfl⟩ := hx
      revert hrow
      refine zipWith_mem_of_left _ (fun row => 0 ≤ row.getD j 0) ls os ?_ row
      intro a ha b
      exact maskedRow_getD_nonneg latR lonR a b j (hpt a ha)
    rw [show maskedLat (lr :: ls) (orow :: os) latR lonR
        = maskedRow latR lonR lr orow :: maskedLat ls os latR lonR from rfl,
      show inclusionMask (lr :: ls) (orow :: os) latR lonR
        = inclMaskRow latR lonR lr orow :: inclusionMask ls os latR lonR from rfl]
    simp only [List.map_cons, List.sum_cons, List.any_cons, Bool.or_eq_true]
    constructor
    · intro h
      by_cases hb2 : (inclMaskRow latR lonR lr orow).getD j false = true
      · exact Or.inl hb2
      · refine Or.inr ((ih hpt).mp ?_)
        have hz : (maskedRow latR lonR lr orow).getD j 0 = 0 := by
          rcases lt_or_eq_of_le hhead with hlt | heq
          · exact absurd ((maskedRow_getD_pos_iff latR lonR lr orow j hlen hph).mp hlt) hb2
          · exact heq.symm
        rw [hz, zero_add] at h
        exact h
    · intro h
      rcases h with hb2 | hb2
      · have hpos2 := (maskedRow_getD_pos_iff latR lonR lr orow j hlen hph).mpr hb2
        linarith
      · have h2 := (ih hpt).mpr hb2
        linarith

/-- A decision is a given boolean once the proposition matches it. -/
theorem decide_eq_of_iff (p : Prop) [Decidable p] (b : Bool) (h : p ↔ b = true) :
    decide p = b := by
  cases b
  · simpa using fun hp => by simpa using h.mp hp
  · simpa using h.mpr rfl

/-- On a positive-latitude grid, the row candidates of the collapse are
exactly the rows containing a qualifying cell. -/
theorem posIdx_rowSums_eq (lat lon : List (List ℚ)) (latR lonR : ℚ × ℚ)
    (hshape : List.Forall₂ (fun lr orow => lr.length = orow.length) lat lon)
    (hpos : ∀ row ∈ lat, ∀ v ∈ row, 0 < v) :
    posIdx (rowSums (maskedLat lat lon latR lonR)) = specQualRows lat lon latR lonR := by
  have hlat : lon.length = lat.length := (List.Forall₂.length_eq hshape).symm
  have hm : (maskedLat lat lon latR lonR).length = lat.length := by
    simp [maskedLat, List.length_zipWith, hlat]
  have hmask : (inclusionMask lat lon latR lonR).length = lat.length := by
    simp [inclusionMask, List.length_zipWith, hlat]
  unfold posIdx rowSums specQualRows
  rw [List.length_map, hm, hmask]
  apply List.filter_congr
  intro i hi
  rw [List.mem_range] at hi
  have hima : i < (inclusionMask lat lon latR lonR).length := by omega
  have him : i < (maskedLat lat lon latR lonR).length := by omega
  have himap : i < ((maskedLat lat lon latR lonR).map List.sum).length := by
    rw [List.length_map]; omega
  rw [List.getD_eq_getElem _ _ himap, List.getElem_map, List.getD_eq_getElem _ _ hima]
  simp only [maskedLat, inclusionMask, List.getElem_zipWith]
  exact decide_eq_of_iff _ _
    (maskedRow_sum_pos_iff latR lonR _ _ (hpos _ (List.getElem_mem hi)))

/-- On a positive-latitude grid, the column candidates of the collapse
are exactly the columns containing a qualifying cell. -/
theorem posIdx_colSums_eq (lat lon : List (List ℚ)) (latR lonR : ℚ × ℚ)
    (hshape : List.Forall₂ (fun lr orow => lr.length = orow.length) lat lon)
    (hpos : ∀ row ∈ lat, ∀ v ∈ row, 0 < v) :
    posIdx (colSums (maskedLat lat lon latR lonR)) = specQualCols lat lon latR lonR := by
  have hnc : nCols (maskedLat lat lon latR lonR) = nCols lat := by
    cases hshape with
    | nil => rfl
    | cons hlen _ => simp [nCols, maskedLat, maskedRow, List.length_zipWith, hlen]
  unfold posIdx colSums specQualCols
  rw [List.length_map, List.length_range, hnc]
  apply List.filter_congr
  intro j hj
  rw [List.mem_range] at hj
  have hjm : j < ((List.range (nCols lat)).map
      fun j => ((maskedLat lat lon latR lonR).map fun row => row.getD j 0).sum).length := by
    rw [List.length_map, List.length_range]; omega
  rw [List.getD_eq_getElem _ _ hjm, List.getElem_map, List.getElem_range]
  exact decide_eq_of_iff _ _ (colEntry_pos_iff latR lonR j lat lon hshape hpos)

/-- C3 amended: the inclusion predicate is the stated strict bounding
box, but the collapse keeps the rows/columns whose sum of included
LATITUDE VALUES is positive, which coincides with "contains a
qualifying cell" only under a positivity assumption on the latitude
grid.  Under that assumption the resolved ranges are the first and last
qualifying row and column indices (and the empty case fails). -/
theorem get_row_col_range_amended (lat lon : List (List ℚ)) (latR lonR : ℚ × ℚ)
    (hshape : List.Forall₂ (fun lr orow => lr.length = orow.length) lat lon)
    (hpos : ∀ row ∈ lat, ∀ v ∈ row, 0 < v) :
    posIdx (rowSums (maskedLat lat lon latR lonR)) = specQualRows lat lon latR lonR
    ∧ posIdx (colSums (maskedLat lat lon latR lonR)) = specQualCols lat lon latR lonR
    ∧ get_row_col_range lat lon latR lonR
      = (match specQualRows lat lon latR lonR, specQualCols lat lon latR lonR with
         | r :: rs, c :: cs => some ((r, rs.getLastD r), (c, cs.getLastD c))
         | _, _ => none) := by
  have h1 := posIdx_rowSums_eq lat lon latR lonR hshape hpos
  have h2 := posIdx_colSums_eq lat lon latR lonR hshape hpos
  refine ⟨h1, h2, ?_⟩
  simp only [get_row_col_range, h1, h2]

/-- The 6×5 separable latitude grid `lat[i][j] = 10 + i` of the
specification's Spatial Subsetter test. -/
def exLat : List (List ℚ) :=
  [[10, 10, 10, 10, 10], [11, 11, 11, 11, 11], [12, 12, 12, 12, 12],
   [13, 13, 13, 13, 13], [14, 14, 14, 14, 14], [15, 15, 15, 15, 15]]

/-- The matching separable longitude grid `lon[i][j] = 20 + j`. -/
def exLon : List (List ℚ) :=
  [[20, 21, 22, 23, 24], [20, 21, 22, 23, 24], [20, 21, 22, 23, 24],
   [20, 21, 22, 23, 24], [20, 21, 22, 23, 24], [20, 21, 22, 23, 24]]

/-- Witness for C3 amended: the bounding box `(11.5, 14.5)×(20.5, 23.5)`
covers exactly rows 2–4 and columns 1–3 of the separable grid, and the
resolver returns `((2,4),(1,3))`. -/
theorem get_row_col_range_amended_witness :
    get_row_col_range exLat exLon (23/2, 29/2) (41/2, 47/2) = some ((2, 4), (1, 3))
    ∧ specQualRows exLat exLon (23/2, 29/2) (41/2, 47/2) = [2, 3, 4]
    ∧ specQualCols exLat exLon (23/2, 29/2) (41/2, 47/2) = [1, 2, 3]
    ∧ posIdx (rowSums (maskedLat exLat exLon (23/2, 29/2) (41/2, 47/2)))
      = specQualRows exLat exLon (23/2, 29/2) (41/2, 47/2) :=
  ⟨by decide, by decide, by decide,
   (get_row_col_range_amended exLat exLon (23/2, 29/2) (41/2, 47/2)
     (.cons rfl (.cons rfl (.cons rfl (.cons rfl (.cons rfl (.cons rfl .nil))))))
     (by decide)).1⟩

/-! ## Claim theorems: Statistics Aggregator -/

/-- C7: the aggregator excludes missing cells from the reduction rather
than zero-filling them — on `[[1,2],[3,NaN]]` the mean is `2`
(not `6/4`) and the population variance is `2/3` (so the standard
deviation is `sqrt(2/3) ≈ 0.8165`) — and on an entirely missing field
every statistic is `NaN` (`none`) rather than an exception. -/
theorem calc_stats_var_data_nan_aware :
    calc_stats_var_data [[some 1, some 2], [some 3, none]] true
      = ((some 2, some (2/3)), none)
    ∧ ∀ (field : List (List (Option ℚ))) (b : Bool), flatVals field = [] →
        calc_stats_var_data field b
          = ((none, none), if b then none else some (none, none)) := by
  refine ⟨by decide, fun field b h => ?_⟩
  simp [calc_stats_var_data, nanmean, nanvar, nanmin, nanmax, h]

/-- Witness for C7 at the all-missing 2×2 field. -/
theorem calc_stats_var_data_nan_aware_witness :
    flatVals [[none, none], [none, none]] = []
    ∧ calc_stats_var_data [[none, none], [none, none]] false
      = ((none, none), some (none, none)) :=
  ⟨by decide, calc_stats_var_data_nan_aware.2 [[none, none], [none, none]] false (by decide)⟩

/-! ## Claim theorems: File Catalog -/

/-- Characters with equal code points are equal. -/
theorem char_toNat_inj (a b : Char) (h : a.toNat = b.toNat) : a = b := by
  have h2 := congrArg Char.ofNat h
  rwa [Char.ofNat_toNat, Char.ofNat_toNat] at h2

/-- The embedded string order is transitive (strict part). -/
theorem strLtL_trans : ∀ as bs cs : List Char,
    strLtL as bs = true → strLtL bs cs = true → strLtL as cs = true := by
  intro as
  induction as with
  | nil =>
    intro bs cs h1 h2
    cases bs with
    | nil => cases h1
    | cons b bs =>
      cases cs with
      | nil => cases h2
      | cons c cs => rfl
  | cons a as ih =>
    intro bs cs h1 h2
    cases bs with
    | nil => cases h1
    | cons b bs =>
      cases cs with
      | nil => cases h2
      | cons c cs =>
        simp only [strLtL, Bool.or_eq_true, Bool.and_eq_true, decide_eq_true_eq,
          beq_iff_eq] at h1 h2 ⊢
        rcases h1 with h1 | ⟨hab, h1⟩ <;> rcases h2 with h2 | ⟨hbc, h2⟩
        · exact Or.inl (by omega)
        · exact Or.inl (by omega)
        · exact Or.inl (by omega)
        · exact Or.inr ⟨by omega, ih bs cs h1 h2⟩

/-- The embedded string order is trichotomous. -/
theorem strLtL_tri : ∀ as bs : List Char,
    strLtL as bs = true ∨ strLtL bs as = true ∨ as = bs := by
  intro as
  induction as with
  | nil =>
    intro bs
    cases bs with
    | nil => exact Or.inr (Or.inr rfl)
    | cons b bs => exact Or.inl rfl
  | cons a as ih =>
    intro bs
    cases bs with
    | nil => exact Or.inr (Or.inl rfl)
    | cons b bs =>
      rcases Nat.lt_trichotomy a.toNat b.toNat with h | h | h
      · exact Or.inl (by simp [strLtL, h])
      · rcases ih bs with h2 | h2 | h2
        · exact Or.inl (by simp [strLtL, h, h2])
        · exact Or.inr (Or.inl (by simp [strLtL, h.symm, h2]))
        · exact Or.inr (Or.inr (by rw [char_toNat_inj a b h, h2]))
      · exact Or.inr (Or.inl (by simp [strLtL, h]))

/-- Totality of the embedded Python string order. -/
theorem strLe_total : ∀ a b : String, strLe a b = true ∨ strLe b a = true := by
  intro a b
  unfold strLe
  rcases strLtL_tri a.data b.data with h | h | h
  · exact Or.inl (by simp [h])
  · exact Or.inr (by simp [h])
  · exact Or.inl (by simp [h])

/-- Transitivity of the embedded Python string order. -/
theorem strLe_trans : ∀ a b c : String, strLe a b = true → strLe b c = true →
    strLe a c = true := by
  intro a b c h1 h2
  unfold strLe at h1 h2 ⊢
  simp only [Bool.or_eq_true, beq_iff_eq] at h1 h2 ⊢
  rcases h1 with h1 | h1 <;> rcases h2 with h2 | h2
  · exact Or.inl (strLtL_trans _ _ _ h1 h2)
  · exact Or.inl (by rw [← h2]; exact h1)
  · exact Or.inl (by rw [h1]; exact h2)
  · exact Or.inr (h1.trans h2)

instance : IsTotal String (fun a b => strLe a b = true) :=
  ⟨strLe_total⟩

instance : IsTrans String (fun a b => strLe a b = true) :=
  ⟨fun a b c => strLe_trans a b c⟩

/-- In the `Except` monad, binding a success applies the
continuation. -/
theorem except_bind_ok {ε α β : Type} (a : α) (f : α → Except ε β) :
    (Except.ok a : Except ε α) >>= f = f a := rfl

/-- Binding a failure keeps the failure. -/
theorem except_bind_error {ε α β : Type} (e : ε) (f : α → Except ε β) :
    (Except.error e : Except ε α) >>= f = Except.error e := rfl

/-- In the `Except` monad, `pure` is `ok`. -/
theorem except_pure_eq {ε α : Type} (a : α) : (pure a : Except ε α) = Except.ok a := rfl

/-- Unfolding of `get_file_list` in the non-`one_per_month` branch. -/
theorem get_file_list_false_eq (dp : String) (listing years mlist : List String)
    (grid : String) :
    get_file_list dp listing years grid mlist false
      = .ok ((if (monthMatches (selectedFiles listing years grid) years mlist).isEmpty
            then selectedFiles listing years grid
            else monthMatches (selectedFiles listing years grid) years mlist).map
          fun f => dp ++ f) := rfl

/-- Unfolding of `get_file_list` in the `one_per_month` branch. -/
theorem get_file_list_true_eq (dp : String) (listing years mlist : List String)
    (grid : String) :
    get_file_list dp listing years grid mlist true
      = (monthTokens (selectedFiles listing years grid) mlist >>= fun mts =>
          pickMonthly (selectedFiles listing years grid) years mts >>= fun monthly =>
            pure ((if monthly.isEmpty then selectedFiles listing years grid else monthly).map
              fun f => dp ++ f)) := rfl

/-- A left fold that appends a block per element is the concatenation
of the blocks. -/
theorem foldl_append_eq_flatten (g : String → List String) :
    ∀ (years : List String) (acc : List String),
      years.foldl (fun a y => a ++ g y) acc = acc ++ (years.map g).flatten := by
  intro years
  induction years with
  | nil => intro acc; simp
  | cons y ys ih => intro acc; simp [ih, List.append_assoc]

/-- The inner month loop of `monthMatches` is the identity when every
month filter comes up empty. -/
theorem foldl_filter_nil (selected : List String) (y : String) :
    ∀ mts : List String,
      (∀ mt ∈ mts, selected.filter (fun f => strContains f (monthStump y mt)) = []) →
      ∀ acc : List String,
        mts.foldl (fun acc2 mt =>
          acc2 ++ selected.filter fun f => strContains f (monthStump y mt)) acc = acc := by
  intro mts
  induction mts with
  | nil => intro _ acc; rfl
  | cons mt ms ih =>
    intro h acc
    simp only [List.foldl_cons]
    rw [h mt (List.mem_cons_self _ _), List.append_nil]
    exact ih (fun m hm => h m (List.mem_cons_of_mem _ hm)) acc

/-- The month-selection list is empty when no year/month pair matches
any selected file. -/
theorem monthMatches_nil (selected : List String) :
    ∀ years mts : List String,
      (∀ y ∈ years, ∀ mt ∈ mts,
        selected.filter (fun f => strContains f (monthStump y mt)) = []) →
      monthMatches selected years mts = [] := by
  intro years
  induction years with
  | nil => intro _ _; rfl
  | cons y ys ih =>
    intro mts h
    unfold monthMatches
    simp only [List.foldl_cons]
    rw [foldl_filter_nil selected y mts (h y (List.mem_cons_self _ _)) []]
    have h2 := ih mts fun y2 hy2 mt hmt => h y2 (List.mem_cons_of_mem _ hy2) mt hmt
    simpa [monthMatches] using h2

/-- One year of the `one_per_month` loop, success case: when every
target month has a matching file, the fold appends the per-month first
matches in month order. -/
theorem pickRow_ok (selected : List String) (y : String) :
    ∀ mts : List String,
      (∀ mt ∈ mts, (firstMonthFile selected y mt).isSome = true) →
      ∀ acc : List String,
        (mts.foldlM (fun acc2 mt =>
          match firstMonthFile selected y mt with
          | some f => Except.ok (acc2 ++ [f])
          | none => Except.error CatalogError.noFileForMonth) acc
          : Except CatalogError (List String))
        = Except.ok (acc ++ mts.map fun mt => (firstMonthFile selected y mt).getD "") := by
  intro mts
  induction mts with
  | nil => intro _ acc; simp [except_pure_eq]
  | cons mt ms ih =>
    intro h acc
    obtain ⟨f, hf⟩ := Option.isSome_iff_exists.mp (h mt (List.mem_cons_self _ _))
    simp only [List.foldlM_cons, hf, except_bind_ok]
    rw [ih (fun m hm => h m (List.mem_cons_of_mem _ hm)) (acc ++ [f])]
    simp [hf, List.append_assoc]

/-- One year of the `one_per_month` loop, failure case: a target month
with no matching file turns the whole fold into the `IndexError`. -/
theorem pickRow_error (selected : List String) (y : String) :
    ∀ mts : List String,
      (∃ mt ∈ mts, firstMonthFile selected y mt = none) →
      ∀ acc : List String,
        (mts.foldlM (fun acc2 mt =>
          match firstMonthFile selected y mt with
          | some f => Except.ok (acc2 ++ [f])
          | none => Except.error CatalogError.noFileForMonth) acc
          : Except CatalogError (List String))
        = Except.error CatalogError.noFileForMonth := by
  intro mts
  induction mts with
  | nil =>
    rintro ⟨mt, hmt, _⟩
    cases hmt
  | cons mt ms ih =>
    rintro ⟨m, hm, hnone⟩ acc
    rcases List.mem_cons.mp hm with rfl | hm2
    · simp only [List.foldlM_cons, hnone, except_bind_error]
    · cases hf : firstMonthFile selected y mt with
      | none => simp only [List.foldlM_cons, hf, except_bind_error]
      | some f =>
        simp only [List.foldlM_cons, hf, except_bind_ok]
        exact ih ⟨m, hm2, hnone⟩ (acc ++ [f])

/-- The full `one_per_month` selection, success case: all year/month
pairs matched, yielding the first matches in loop order. -/
theorem pickMonthly_ok (selected : List String) :
    ∀ years mts : List String,
      (∀ y ∈ years, ∀ mt ∈ mts, (firstMonthFile selected y mt).isSome = true) →
      ∀ acc : List String,
        (years.foldlM (fun acc y =>
          mts.foldlM (fun acc2 mt =>
            match firstMonthFile selected y mt with
            | some f => Except.ok (acc2 ++ [f])
            | none => Except.error CatalogError.noFileForMonth) acc) acc
          : Except CatalogError (List String))
        = Except.ok (acc ++
            (years.map fun y => mts.map fun mt => (firstMonthFile selected y mt).getD "").flatten) := by
  intro years
  induction years with
  | nil => intro _ _ acc; simp [except_pure_eq]
  | cons y ys ih =>
    intro mts h acc
    simp only [List.foldlM_cons]
    rw [pickRow_ok selected y mts (h y (List.mem_cons_self _ _)) acc, except_bind_ok]
    rw [ih mts (fun y2 hy2 mt hmt => h y2 (List.mem_cons_of_mem _ hy2) mt hmt) _]
    simp [List.append_assoc]

/-- The full `one_per_month` selection, failure case: some year/month
pair has no matching file. -/
theorem pickMonthly_error (selected : List String) :
    ∀ years mts : List String,
      (∃ y ∈ years, ∃ mt ∈ mts, firstMonthFile selected y mt = none) →
      ∀ acc : List String,
        (years.foldlM (fun acc y =>
          mts.foldlM (fun acc2 mt =>
            match firstMonthFile selected y mt with
            | some f => Except.ok (acc2 ++ [f])
            | none => Except.error CatalogError.noFileForMonth) acc) acc
          : Except CatalogError (List String))
        = Except.error CatalogError.noFileForMonth := by
  intro years
  induction years with
  | nil =>
    rintro _ ⟨y, hy, _⟩
    cases hy
  | cons y ys ih =>
    rintro mts ⟨y0, hy0, m, hm, hnone⟩ acc
    simp only [List.foldlM_cons]
    rcases List.mem_cons.mp hy0 with rfl | hy2
    · rw [pickRow_error selected y0 mts ⟨m, hm, hnone⟩ acc, except_bind_error]
    · by_cases hall : ∀ mt ∈ mts, (firstMonthFile selected y mt).isSome = true
      · rw [pickRow_ok selected y mts hall acc, except_bind_ok]
        exact ih mts ⟨y0, hy2, m, hm, hnone⟩ _
      · push_neg at hall
        obtain ⟨mt, hmt, hns⟩ := hall
        have hn : firstMonthFile selected y mt = none := by
          cases hx : firstMonthFile selected y mt with
          | none => rfl
          | some f => rw [hx] at hns; simp at hns
        rw [pickRow_error selected y mts ⟨mt, hmt, hn⟩ acc, except_bind_error]

/-- C8: with no month filter, the catalog returns exactly the listing
entries containing both the `_y<year>` and `_grid<grid>` tokens for
some requested year — grouped by year in year-list order, each year's
block sorted by the Python string order, every entry prefixed with the
data path — as evaluated on the specification's three-file example. -/
theorem get_file_list_year_grid_catalog (dp : String) (listing years : List String)
    (grid : String) :
    get_file_list dp listing years grid [] false
      = .ok (((years.map fun y => sortStrings (yearGridFilter listing grid y)).flatten).map
          fun f => dp ++ f)
    ∧ (∀ s, s ∈ ((years.map fun y => sortStrings (yearGridFilter listing grid y)).flatten).map
          (fun f => dp ++ f) ↔
        ∃ y ∈ years, ∃ f ∈ listing,
          (strContains f ("_y" ++ y) && strContains f ("_grid" ++ grid)) = true ∧ s = dp ++ f)
    ∧ (∀ y, List.Sorted (fun a b => strLe a b = true)
        (sortStrings (yearGridFilter listing grid y)))
    ∧ get_file_list "/data/" ["R_y1998m01d01_gridT.nc", "R_y1998m02d01_gridT.nc",
        "R_y1999m01d01_gridT.nc"] ["1998"] "T" [] false
      = .ok ["/data/R_y1998m01d01_gridT.nc", "/data/R_y1998m02d01_gridT.nc"] := by
  have hsel : selectedFiles listing years grid
      = (years.map fun y => sortStrings (yearGridFilter listing grid y)).flatten := by
    unfold selectedFiles
    simpa using foldl_append_eq_flatten
      (fun y => sortStrings (yearGridFilter listing grid y)) years []
  refine ⟨?_, ?_, ?_, by decide⟩
  · have hmm : monthMatches (selectedFiles listing years grid) years [] = [] :=
      monthMatches_nil _ years [] (by intro y hy mt hmt; cases hmt)
    rw [get_file_list_false_eq, hmm]
    simp [hsel]
  · intro s
    simp only [List.mem_map, List.mem_flatten, sortStrings]
    constructor
    · rintro ⟨f, ⟨l, ⟨⟨y, hy, rfl⟩, hfl⟩⟩, rfl⟩
      have hf : f ∈ yearGridFilter listing grid y :=
        ((List.perm_insertionSort _ _).mem_iff).mp hfl
      rw [yearGridFilter, List.mem_filter] at hf
      exact ⟨y, hy, f, hf.1, hf.2, rfl⟩
    · rintro ⟨y, hy, f, hfl, hpred, rfl⟩
      refine ⟨f, ⟨List.insertionSort (fun a b => strLe a b = true)
        (yearGridFilter listing grid y), ⟨⟨y, hy, rfl⟩, ?_⟩⟩, rfl⟩
      exact ((List.perm_insertionSort _ _).mem_iff).mpr
        (List.mem_filter.mpr ⟨hfl, hpred⟩)
  · intro y
    exact List.sorted_insertionSort _ _

/-- C9: with `one_per_month`, once the target month tokens are fixed
(the explicit month list if given, else the formatted `get_date` month
of every selected file), the catalog selects for every year/month pair
the FIRST selected file containing the `y<year>m<month>` stump — in
year-then-month loop order, prefixed — and raises the `IndexError`
(`noFileForMonth`) as soon as some requested pair has no match. -/
theorem get_file_list_one_per_month (dp : String) (listing years mlist : List String)
    (grid : String) (mts : List String)
    (hmts : monthTokens (selectedFiles listing years grid) mlist = .ok mts) :
    (years ≠ [] → mts ≠ [] →
      (∀ y ∈ years, ∀ mt ∈ mts,
        (firstMonthFile (selectedFiles listing years grid) y mt).isSome = true) →
      get_file_list dp listing years grid mlist true
        = .ok (((years.map fun y => mts.map fun mt =>
            (firstMonthFile (selectedFiles listing years grid) y mt).getD "").flatten).map
              fun f => dp ++ f))
    ∧ ((∃ y ∈ years, ∃ mt ∈ mts,
        firstMonthFile (selectedFiles listing years grid) y mt = none) →
      get_file_list dp listing years grid mlist true = .error CatalogError.noFileForMonth) := by
  constructor
  · intro hy hm hall
    have hpick := pickMonthly_ok (selectedFiles listing years grid) years mts hall []
    have hne : (((years.map fun y => mts.map fun mt =>
        (firstMonthFile (selectedFiles listing years grid) y mt).getD "").flatten)).isEmpty
        = false := by
      cases years with
      | nil => exact absurd rfl hy
      | cons y ys =>
        cases mts with
        | nil => exact absurd rfl hm
        | cons mt ms => simp
    rw [get_file_list_true_eq, hmts, except_bind_ok]
    unfold pickMonthly
    rw [hpick]
    rw [except_bind_ok]
    simp only [List.nil_append]
    rw [hne]
    simp [except_pure_eq]
  · intro hex
    have hpick := pickMonthly_error (selectedFiles listing years grid) years mts hex []
    rw [get_file_list_true_eq, hmts, except_bind_ok]
    unfold pickMonthly
    rw [hpick, except_bind_error]

/-- Witness for C9: explicit month list `["01"]` picks the
alphabetically first January file; month list `["02"]` has no match
and fails. -/
theorem get_file_list_one_per_month_witness :
    monthTokens (selectedFiles ["R_y1998m01d15_gridT.nc", "R_y1998m01d01_gridT.nc"]
      ["1998"] "T") ["01"] = .ok ["01"]
    ∧ get_file_list "/d/" ["R_y1998m01d15_gridT.nc", "R_y1998m01d01_gridT.nc"]
      ["1998"] "T" ["01"] true = .ok ["/d/R_y1998m01d01_gridT.nc"]
    ∧ get_file_list "/d/" ["R_y1998m01d15_gridT.nc", "R_y1998m01d01_gridT.nc"]
      ["1998"] "T" ["02"] true = .error CatalogError.noFileForMonth :=
  ⟨by decide,
   (get_file_list_one_per_month "/d/" ["R_y1998m01d15_gridT.nc", "R_y1998m01d01_gridT.nc"]
      ["1998"] ["01"] "T" ["01"] (by decide)).1 (by decide) (by decide) (by decide),
   (get_file_list_one_per_month "/d/" ["R_y1998m01d15_gridT.nc", "R_y1998m01d01_gridT.nc"]
      ["1998"] ["02"] "T" ["02"] (by decide)).2
     ⟨"1998", by decide, "02", by decide, by decide⟩⟩

/-- C10 (implicit fallback): without `one_per_month`, an explicit month
list that matches nothing leaves the month selection empty, and the
`if monthly_file_list:` guard silently falls back to the full
year/grid selection instead of returning the empty list. -/
theorem get_file_list_month_filter_fallback (dp : String) (listing years mlist : List String)
    (grid : String) (hml : mlist ≠ [])
    (h : ∀ y ∈ years, ∀ mt ∈ mlist,
      (selectedFiles listing years grid).filter
        (fun f => strContains f (monthStump y mt)) = []) :
    get_file_list dp listing years grid mlist false
      = .ok ((selectedFiles listing years grid).map fun f => dp ++ f) := by
  have hmm := monthMatches_nil (selectedFiles listing years grid) years mlist h
  rw [get_file_list_false_eq, hmm]
  rfl

/-- Witness for C10: the month filter `["07"]` matches no file, yet the
full 1998 selection is returned. -/
theorem get_file_list_month_filter_fallback_witness :
    (["07"] : List String) ≠ []
    ∧ (∀ y ∈ (["1998"] : List String), ∀ mt ∈ (["07"] : List String),
        (selectedFiles ["R_y1998m01d01_gridT.nc"] ["1998"] "T").filter
          (fun f => strContains f (monthStump y mt)) = [])
    ∧ get_file_list "/d/" ["R_y1998m01d01_gridT.nc"] ["1998"] "T" ["07"] false
      = .ok ["/d/R_y1998m01d01_gridT.nc"] :=
  ⟨by decide, by decide,
   get_file_list_month_filter_fallback "/d/" ["R_y1998m01d01_gridT.nc"] ["1998"] ["07"] "T"
     (by decide) (by decide)⟩

/-! ## Claim theorems: Time-Series Builder -/

/-- C1 (code bug): for a non-empty file list `get_timeseries` never
produces the claimed one-row-per-file table.  The initializer
`var_means = var_stds = []` aliases both names to one list, so the loop
appends each file's mean AND standard deviation to the same object:
after `n` files the shared column has `2n` entries against `n` dates,
and the `pd.DataFrame` constructor raises `ValueError` (columns of
unequal length).  Evaluated here on a single file. -/
theorem get_timeseries_aliased_columns_fault :
    get_timeseries (fun _ => [[some 1, some 2], [some 3, none]])
      ["ANHA4-EPM111_y1998m04d05_gridT.nc"] true
      = .error .columnLengthMismatch
    ∧ get_timeseries (fun _ => [[some 1, some 2], [some 3, none]])
      ["ANHA4-EPM111_y1998m04d05_gridT.nc"] false
      = .error .columnLengthMismatch := by
  exact ⟨by decide, by decide⟩
